import Mathlib

/-!
Verification of the embedded-command protocol and sandboxed execution engine
of `backend/server.py`.

Texts, paths and shell commands are modelled as `List Char` (called `Str`
below).  Brace characters inside string literals are written with the
escapes `\x7b` and `\x7d`.  The filesystem is modelled as an association
list from path strings to entries; file bytes are modelled as a list of
`FByte`, distinguishing bytes that decode as text characters from bytes on
which a strict utf-8 decode fails.  Python exception messages are
canonicalised to fixed strings carrying the errno prefix of the message
`str(e)` would produce.
-/

set_option autoImplicit false

namespace Server

/-- Text (Python `str`) modelled as a list of characters. -/
abbrev Str := List Char

/-- Python `needle in hay` substring test. -/
def isSubstr (p : Str) (s : Str) : Bool :=
  if p.isPrefixOf s then true
  else
    match s with
    | [] => false
    | _ :: t => isSubstr p t

/-- Python `str.lower`, restricted to the ASCII case mapping. -/
def pyLower (s : Str) : Str := s.map Char.toLower

/-- ASCII word character, modelling `\w` of the command regex
(the source only ever uses ASCII operation identifiers). -/
def isWordChar (c : Char) : Bool :=
  ('a' ≤ c && c ≤ 'z') || ('A' ≤ c && c ≤ 'Z') || ('0' ≤ c && c ≤ '9') || c = '_'

/-- Maximal leading run of word characters, and the rest. -/
def takeWord : Str → Str × Str
  | [] => ([], [])
  | c :: rest =>
    if isWordChar c then
      let (w, r) := takeWord rest
      (c :: w, r)
    else
      ([], c :: rest)

/-- Strip a literal text from the head of the input, or fail. -/
def stripLit : Str → Str → Option Str
  | [], s => some s
  | _ :: _, [] => none
  | l :: ls, c :: cs => if l = c then stripLit ls cs else none

/-- The close delimiter of the command grammar, `\x7d\x7d`. -/
def closeDelim : Str := '\x7d' :: '\x7d' :: []

/-- Does the text begin with the close delimiter of the command grammar? -/
def startsWithClose : Str → Bool
  | c :: d :: _ => c = '\x7d' && d = '\x7d'
  | _ => false

/--
A directive extracted by `CommandProcessor.extract_commands`, mirroring the
dict `\x7b"operation", "path", "content", "full_match"\x7d` the source builds
for each regex match.
-/
structure Cmd where
  operation : Str
  path : Str
  content : Option Str
  full_match : Str
  deriving Repr, DecidableEq

/--
Scan for the earliest close delimiter `\x7d\x7d`, returning the characters
before it and the rest after it.  This models the lazy tail
`(.+?)\}\}` of the command regex once at least one content character has
been consumed.
-/
def findClose : Str → Option (Str × Str)
  | [] => none
  | s@(c :: rest) =>
    if startsWithClose s then some ([], s.drop 2)
    else
      match findClose rest with
      | some (a, b) => some (c :: a, b)
      | none => none

/--
Content segment of the command regex: `(.+?)` is lazy, so the content is
the shortest nonempty segment that is immediately followed by the close
delimiter.
-/
def contentScan : Str → Option (Str × Str)
  | [] => none
  | c :: rest =>
    match findClose rest with
    | some (a, b) => some (c :: a, b)
    | none => none

/--
The body scan of the command regex after `\{\{command:(\w+)\|`: the lazy
path `(.*?)` grows one character at a time; at each stop the regex engine
first tries the optional group `(?:\|(.+?))?` (a separator followed by lazy
content and the close delimiter) and then the close delimiter alone.
Returns the path, the optional content, and the rest of the input after the
close delimiter.
-/
def scanBody : Str → Option (Str × Option Str × Str)
  | [] => none
  | s@(c :: rest) =>
    if c = '|' then
      match contentScan rest with
      | some (cont, r) => some ([], some cont, r)
      | none =>
        match scanBody rest with
        | some (p, co, r) => some (c :: p, co, r)
        | none => none
    else if startsWithClose s then
      some ([], none, s.drop 2)
    else
      match scanBody rest with
      | some (p, co, r) => some (c :: p, co, r)
      | none => none

/-- The command token opener, `\x7b\x7bcommand:`. -/
def openLit : Str := "\x7b\x7bcommand:".data

/--
Try to match the command regex
`\{\{command:(\w+)\|(.*?)(?:\|(.+?))?\}\}` (DOTALL) at the head of the
input.  On success, return the extracted directive together with the input
that remains after the match.
-/
def matchAt (s : Str) : Option (Cmd × Str) :=
  match stripLit openLit s with
  | none => none
  | some r1 =>
    let op := (takeWord r1).1
    let r2 := (takeWord r1).2
    if op = [] then none
    else if r2.head? = some '|' then
      match scanBody (r2.drop 1) with
      | some (p, co, rest) =>
        let body : Str :=
          p ++ (match co with | some c => '|' :: c | none => []) ++ closeDelim
        some ({ operation := op, path := p, content := co,
                full_match := openLit ++ op ++ '|' :: body }, rest)
      | none => none
    else none

/--
`re.finditer` scan: at each position try the pattern; on a match continue
after it, otherwise advance one character.  The fuel argument is the length
of the remaining input, which only ever shrinks.
-/
def extractAux : Nat → Str → List Cmd
  | 0, _ => []
  | _, [] => []
  | Nat.succ n, s@(_ :: rest) =>
    match matchAt s with
    | some (cmd, after) => cmd :: extractAux n after
    | none => extractAux n rest

/-- `CommandProcessor.extract_commands`:
extract all embedded directives of a text, in source order. -/
def extract_commands (response : Str) : List Cmd :=
  extractAux response.length response

/-- Sanity: a plain token with operation, path and content. -/
theorem extract_sanity_basic :
    extract_commands "\x7b\x7bcommand:write|p|hello\x7d\x7d".data =
      [{ operation := "write".data, path := "p".data,
         content := some "hello".data,
         full_match := "\x7b\x7bcommand:write|p|hello\x7d\x7d".data }] := by
  decide

/-- Sanity: content parsing is lazy, matching the Python engine on
`\x7b\x7bcommand:write|p|a\x7d\x7db\x7d\x7d`. -/
theorem extract_sanity_lazy :
    extract_commands "\x7b\x7bcommand:write|p|a\x7d\x7db\x7d\x7d".data =
      [{ operation := "write".data, path := "p".data,
         content := some "a".data,
         full_match := "\x7b\x7bcommand:write|p|a\x7d\x7d".data }] := by
  decide

/-- Sanity: a token with no content segment. -/
theorem extract_sanity_nocontent :
    extract_commands "x\x7b\x7bcommand:read|f\x7d\x7dy".data =
      [{ operation := "read".data, path := "f".data, content := none,
         full_match := "\x7b\x7bcommand:read|f\x7d\x7d".data }] := by
  decide

/-- Sanity: the path absorbs a separator when no content can close,
matching the Python engine on `\x7b\x7bcommand:a|x|\x7d\x7d`. -/
theorem extract_sanity_path_pipe :
    (extract_commands "\x7b\x7bcommand:a|x|\x7d\x7d".data).map
        (fun c => (c.path, c.content)) = [("x|".data, none)] := by
  decide

/-- Sanity: content may begin with the close delimiter when the lazy scan
needs at least one character, matching Python on
`\x7b\x7bcommand:a|b|\x7d\x7dx\x7d\x7d`. -/
theorem extract_sanity_close_head :
    (extract_commands "\x7b\x7bcommand:a|b|\x7d\x7dx\x7d\x7d".data).map
        (fun c => (c.path, c.content)) =
      [("b".data, some "\x7d\x7dx".data)] := by
  decide

/-! ## Filesystem model -/

/--
One byte of file data.  `ch c` is a byte sequence decoding to the text
character `c`; `bad b` is a raw byte on which a strict utf-8 decode raises
`UnicodeDecodeError`.
-/
inductive FByte where
  | ch (c : Char)
  | bad (b : Nat)
  deriving Repr, DecidableEq

/-- Strict utf-8 decode, as performed by `open(path, encoding='utf-8')`:
fails on any undecodable byte. -/
def decodeStrict : List FByte → Option Str
  | [] => some []
  | FByte.ch c :: rest => (decodeStrict rest).map (c :: ·)
  | FByte.bad _ :: _ => none

/-- Decode with `errors='replace'`: undecodable bytes become U+FFFD. -/
def decodeReplace : List FByte → Str
  | [] => []
  | FByte.ch c :: rest => c :: decodeReplace rest
  | FByte.bad _ :: rest => '�' :: decodeReplace rest

/-- Encoding of a text written through `file.write`. -/
def encodeText (s : Str) : List FByte := s.map FByte.ch

/-- A filesystem entry: a regular file with its bytes, or a directory. -/
inductive FSEntry where
  | file (data : List FByte)
  | dir
  deriving Repr, DecidableEq

/--
The filesystem, modelled as an association list from path strings to
entries (first binding wins).  Paths are taken verbatim as keys, so the
model identifies a path with its spelling, exactly as the source compares
the strings it is given.
-/
abbrev FS := List (Str × FSEntry)

/-- Look up the entry at a path. -/
def entryOf (fs : FS) (p : Str) : Option FSEntry :=
  match fs with
  | [] => none
  | (q, e) :: rest => if q = p then some e else entryOf rest p

/-- `os.path.exists`. -/
def existsAt (fs : FS) (p : Str) : Bool := (entryOf fs p).isSome

/-- `os.path.isdir`. -/
def isDirAt (fs : FS) (p : Str) : Bool := entryOf fs p = some FSEntry.dir

/-- `os.path.isfile`. -/
def isFileAt (fs : FS) (p : Str) : Bool :=
  match entryOf fs p with
  | some (FSEntry.file _) => true
  | _ => false

/-- Remove a binding. -/
def eraseKey (fs : FS) (p : Str) : FS := fs.filter (fun pe => pe.1 ≠ p)

/-- Set the entry at a path, replacing any previous binding. -/
def setEntry (fs : FS) (p : Str) (e : FSEntry) : FS := (p, e) :: eraseKey fs p

/-- `shutil.rmtree` plus `os.remove`: drop the path and everything below it. -/
def eraseTree (fs : FS) (p : Str) : FS :=
  fs.filter (fun pe => pe.1 ≠ p ∧ ¬ (p ++ '/' :: []).isPrefixOf pe.1)

/-- Last index of `'/'` in a path, if any. -/
def lastSlashIdx (p : Str) : Option Nat :=
  match p with
  | [] => none
  | c :: rest =>
    match lastSlashIdx rest with
    | some i => some (i + 1)
    | none => if c = '/' then some 0 else none

/-- `os.path.dirname` (posix): the text up to the final `'/'`, with
trailing slashes stripped unless the head is all slashes. -/
def dirname (p : Str) : Str :=
  match lastSlashIdx p with
  | none => []
  | some i =>
    let head := p.take (i + 1)
    if head.all (· = '/') then head
    else head.reverse.dropWhile (· = '/') |>.reverse

/-- `os.path.basename` (posix): the text after the final `'/'`. -/
def basename (p : Str) : Str :=
  match lastSlashIdx p with
  | none => p
  | some i => p.drop (i + 1)

/-- `os.path.join` for the shapes the source uses (a directory and a
bare entry name). -/
def joinPath (p : Str) (name : Str) : Str :=
  if p ≠ [] ∧ p.getLast? = some '/' then p ++ name else p ++ '/' :: name

/-- The names `os.listdir` returns: immediate children of a directory,
in the order the underlying listing (the association list) provides. -/
def listdir (fs : FS) (p : Str) : List Str :=
  fs.filterMap (fun pe => if dirname pe.1 = p then some (basename pe.1) else none)

/--
`os.makedirs(d, exist_ok=True)` as an exception-or-state result.  Raises
`FileNotFoundError` on the empty path and `FileExistsError` when the path
exists as a regular file; creating the missing ancestors of `d` is
abstracted to creating `d` itself.
-/
def makedirsOk (fs : FS) (d : Str) : Except Str FS :=
  if d = [] then Except.error "[Errno 2] No such file or directory: ''".data
  else
    match entryOf fs d with
    | some (FSEntry.file _) =>
      Except.error ("[Errno 17] File exists: '".data ++ d ++ "'".data)
    | some FSEntry.dir => Except.ok fs
    | none => Except.ok (setEntry fs d FSEntry.dir)

/-- Canonical message of a `UnicodeDecodeError`. -/
def decodeErrMsg : Str := "'utf-8' codec can't decode byte".data

/-- Canonical message of an `IsADirectoryError` raised by `open`. -/
def isADirErrMsg (p : Str) : Str :=
  "[Errno 21] Is a directory: '".data ++ p ++ "'".data

/-! ## Direct file-operation API (`file_operation`) -/

/-- The pydantic request model `FileOperation`. -/
structure FileOperation where
  operation : Str
  path : Str
  content : Option Str := none
  new_path : Option Str := none
  pattern : Option Str := none
  recursive : Bool := false
  deriving Repr, DecidableEq

/-- One entry of a `list` result (the `modified` timestamp of the source
is not modelled; the filesystem model carries no clock). -/
structure ItemEntry where
  name : Str
  is_directory : Bool
  size : Nat
  deriving Repr, DecidableEq

/-- One regex match reported by the content search: line number
(1-based), full line text, and matched text. -/
structure SearchMatch where
  line : Nat
  content : Str
  matchText : Str
  deriving Repr, DecidableEq

/-- Per-file result of the content search. -/
structure SearchFileResult where
  file : Str
  matchList : List SearchMatch
  deriving Repr, DecidableEq

/-- The JSON-dict response of `file_operation`; keys the source leaves out
of a given return are `none`. -/
structure FileOpResponse where
  success : Bool
  error : Option Str := none
  content : Option Str := none
  items : Option (List ItemEntry) := none
  results : Option (List SearchFileResult) := none
  deriving Repr, DecidableEq

/-- `path.startswith('/')`. -/
def startsWithSlash : Str → Bool
  | '/' :: _ => true
  | _ => false

/-- The path-validation test of `file_operation`:
`'..' in path or path.startswith('/')`. -/
def pathRejected (p : Str) : Bool :=
  isSubstr "..".data p || startsWithSlash p

/-- The `read` branch of `file_operation`. -/
def read_impl (fs : FS) (p : Str) : FileOpResponse :=
  match entryOf fs p with
  | none => { success := false, error := some ("File not found: ".data ++ p) }
  | some FSEntry.dir =>
    { success := false, error := some (p ++ " is a directory, not a file".data) }
  | some (FSEntry.file d) =>
    match decodeStrict d with
    | some t => { success := true, content := some t }
    | none => { success := false, error := some decodeErrMsg }

/-- The `write` branch of `file_operation`. -/
def write_impl (fs : FS) (p : Str) (co : Option Str) : FileOpResponse × FS :=
  match co with
  | none =>
    ({ success := false, error := some "No content provided for write operation".data }, fs)
  | some c =>
    match makedirsOk fs (dirname p) with
    | Except.error e => ({ success := false, error := some e }, fs)
    | Except.ok fs1 =>
      if isDirAt fs1 p then
        ({ success := false, error := some (isADirErrMsg p) }, fs1)
      else
        ({ success := true }, setEntry fs1 p (FSEntry.file (encodeText c)))

/-- The `create` branch of `file_operation`: unlike `write` it fails when
the target exists, and an absent or empty request content yields an empty
file. -/
def create_impl (fs : FS) (p : Str) (co : Option Str) : FileOpResponse × FS :=
  if existsAt fs p then
    ({ success := false, error := some (p ++ " already exists".data) }, fs)
  else
    match makedirsOk fs (dirname p) with
    | Except.error e => ({ success := false, error := some e }, fs)
    | Except.ok fs1 =>
      ({ success := true }, setEntry fs1 p (FSEntry.file (encodeText (co.getD []))))

/-- The `delete` branch of `file_operation`.  For a directory the source
calls `shutil.rmtree`, for a file `os.remove`; both are the removal of the
path together with everything below it. -/
def delete_impl (fs : FS) (p : Str) : FileOpResponse × FS :=
  if existsAt fs p then ({ success := true }, eraseTree fs p)
  else ({ success := false, error := some ("Path not found: ".data ++ p) }, fs)

/-- Size reported for a listed item:
`os.path.getsize` for files, `0` otherwise. -/
def sizeAt (fs : FS) (p : Str) : Nat :=
  match entryOf fs p with
  | some (FSEntry.file d) => d.length
  | _ => 0

/-- The `list` branch of `file_operation`. -/
def list_impl (fs : FS) (p : Str) : FileOpResponse :=
  if ¬ existsAt fs p then
    { success := false, error := some ("Path not found: ".data ++ p) }
  else if ¬ isDirAt fs p then
    { success := false, error := some (p ++ " is not a directory".data) }
  else
    { success := true,
      items := some ((listdir fs p).map (fun name =>
        let ip := joinPath p name
        { name := name, is_directory := isDirAt fs ip, size := sizeAt fs ip })) }

/-- The `rename` branch of `file_operation`: `shutil.move` modelled as
rebasing the source key and every key below it onto the destination. -/
def rename_impl (fs : FS) (p : Str) (np : Option Str) : FileOpResponse × FS :=
  if ¬ existsAt fs p then
    ({ success := false, error := some ("Path not found: ".data ++ p) }, fs)
  else
    match np with
    | none =>
      ({ success := false, error := some "New path not provided for rename operation".data }, fs)
    | some q =>
      match makedirsOk fs (dirname q) with
      | Except.error e => ({ success := false, error := some e }, fs)
      | Except.ok fs1 =>
        ({ success := true },
         fs1.map (fun ke =>
           if ke.1 = p then (q, ke.2)
           else if (p ++ '/' :: []).isPrefixOf ke.1 then
             (q ++ ke.1.drop p.length, ke.2)
           else ke))

/--
`re.finditer` of a literal pattern over decoded content: leftmost,
non-overlapping matches, returned as start/end offsets.  The source
compiles the request pattern as a regex (falling back to the escaped
literal when compilation fails); this model covers the patterns without
regex metacharacters, on which the regex and the literal search coincide.
-/
def findMatchesAux (pat : Str) : Nat → Str → Nat → List (Nat × Nat)
  | 0, _, _ => []
  | Nat.succ n, s, i =>
    match s with
    | [] => []
    | _ :: rest =>
      if pat ≠ [] ∧ pat.isPrefixOf s then
        (i, i + pat.length) :: findMatchesAux pat n (s.drop pat.length) (i + pat.length)
      else
        findMatchesAux pat n rest (i + 1)

/-- All matches of a literal pattern in a text. -/
def findMatches (pat : Str) (s : Str) : List (Nat × Nat) :=
  findMatchesAux pat s.length s 0

/-- Last index of a given character, if any
(`str.rfind` restricted to one character). -/
def lastIdxOf (c : Char) (p : Str) : Option Nat :=
  match p with
  | [] => none
  | x :: rest =>
    match lastIdxOf c rest with
    | some i => some (i + 1)
    | none => if x = c then some 0 else none

/-- First index of a newline at or after a position, or the text length
(`content.find('\n', end_pos)` with the `-1` case mapped to the length). -/
def lineEndFrom (content : Str) (e : Nat) : Nat :=
  match (content.drop e).findIdx? (· = '\n') with
  | some i => e + i
  | none => content.length

/-- The line data the search reports for a match at offsets `(s, e)`:
1-based line number and the full line containing the match start. -/
def matchEntry (content : Str) (se : Nat × Nat) : SearchMatch :=
  let lineNum := (content.take se.1).count '\n' + 1
  let lineStart :=
    match lastIdxOf '\n' (content.take se.1) with
    | some i => i + 1
    | none => 0
  let lineEnd := lineEndFrom content se.2
  { line := lineNum,
    content := (content.take lineEnd).drop lineStart,
    matchText := (content.take se.2).drop se.1 }

/-- `os.path.relpath(file_path, path)` for the shapes the search produces
(the file path extends the root). -/
def relpath (fp : Str) (root : Str) : Str :=
  if (root ++ '/' :: []).isPrefixOf fp then fp.drop (root.length + 1) else fp

/--
The inner `search_file` of the `search` branch.  The source opens the file
with `errors='replace'`, so the decode never raises and undecodable bytes
are searched as U+FFFD; the `except (UnicodeDecodeError, IOError)` handler
can therefore only fire for OS-level I/O errors, which this model does not
represent.  A file with no matches yields `none`.
-/
def search_file (fs : FS) (root : Str) (pat : Str) (fp : Str) :
    Option SearchFileResult :=
  match entryOf fs fp with
  | some (FSEntry.file d) =>
    let content := decodeReplace d
    let rs := (findMatches pat content).map (matchEntry content)
    if rs = [] then none
    else some { file := relpath fp root, matchList := rs }
  | _ => none

/-- `os.walk` file enumeration, top-down: the files of a directory in
listing order, then the files below each subdirectory. -/
def walkFiles (fs : FS) : Nat → Str → List Str
  | 0, _ => []
  | Nat.succ n, p =>
    let entries := (listdir fs p).map (joinPath p)
    entries.filter (isFileAt fs) ++
      (entries.filter (isDirAt fs)).foldl (fun acc d => acc ++ walkFiles fs n d) []

/-- The `search` branch of `file_operation`. -/
def search_impl (fs : FS) (p : Str) (pat : Option Str) (recursive : Bool) :
    FileOpResponse :=
  if pat.getD [] = [] then
    { success := false, error := some "Search pattern is required".data }
  else if ¬ existsAt fs p then
    { success := false, error := some ("Path not found: ".data ++ p) }
  else if ¬ isDirAt fs p then
    { success := false, error := some (p ++ " is not a directory".data) }
  else
    let files :=
      if recursive then walkFiles fs fs.length p
      else ((listdir fs p).map (joinPath p)).filter (isFileAt fs)
    { success := true,
      results := some (files.filterMap (search_file fs p (pat.getD []))) }

/--
`file_operation`: lowercase the operation, reject traversal paths, then
dispatch to the branch; every failure is a returned error payload.
Mutating branches also return the updated filesystem.
-/
def file_operation (fs : FS) (req : FileOperation) : FileOpResponse × FS :=
  let p := req.path
  let op := pyLower req.operation
  if pathRejected p then
    ({ success := false,
       error := some "Invalid path. Directory traversal is not allowed.".data }, fs)
  else if op = "read".data then (read_impl fs p, fs)
  else if op = "write".data then write_impl fs p req.content
  else if op = "list".data then (list_impl fs p, fs)
  else if op = "create".data then create_impl fs p req.content
  else if op = "delete".data then delete_impl fs p
  else if op = "rename".data then rename_impl fs p req.new_path
  else if op = "search".data then (search_impl fs p req.pattern req.recursive, fs)
  else
    ({ success := false, error := some ("Unsupported operation: ".data ++ op) }, fs)

/-! ## Embedded command processor (`CommandProcessor.process_commands`) -/

/-- Captured output of a shell invocation. -/
structure ShellOut where
  stdout : Str
  stderr : Str
  returncode : Int
  deriving Repr, DecidableEq

/-- The external shell, as an oracle from command text to its outcome. -/
abbrev ShellOracle := Str → ShellOut

/-- One item of an embedded `list` result. -/
structure EmbItem where
  name : Str
  is_directory : Bool
  size : Nat
  deriving Repr, DecidableEq

/-- The per-directive result dict built by `process_commands`; keys the
source never sets for a given operation are `none`. -/
structure CmdResult where
  operation : Str
  path : Str
  success : Bool
  message : Str
  content : Option Str := none
  items : Option (List EmbItem) := none
  stdout : Option Str := none
  stderr : Option Str := none
  returncode : Option Int := none
  deriving Repr, DecidableEq

/-- Python truthiness of the optional content:
`not content` holds for an absent and for an empty content. -/
def contentMissing : Option Str → Bool
  | none => true
  | some c => c = []

/-- `"Error processing command: " ++ str(e)`, the message of the
per-directive exception handler. -/
def procErrMsg (e : Str) : Str := "Error processing command: ".data ++ e

/-- The operation-specific fields of a per-directive result: everything of
`CmdResult` except the `operation` and `path` echo fields, which the source
copies from the directive into the result dict before dispatching. -/
structure CmdOutcome where
  success : Bool
  message : Str
  content : Option Str := none
  items : Option (List EmbItem) := none
  stdout : Option Str := none
  stderr : Option Str := none
  returncode : Option Int := none
  deriving Repr, DecidableEq

/--
Processing of one extracted directive: the body of the `for` loop of
`process_commands`, producing the fields the branch writes into the result
dict.  Every failure of a filesystem or shell step is the caught exception
of the source, rendered into the result's message.  Returns the outcome,
the filesystem after the directive, and the list of command lines
dispatched to the shell (empty or a singleton).
-/
def processOneCore (shell : ShellOracle) (fs : FS) (cmd : Cmd) :
    CmdOutcome × FS × List Str :=
  let base : CmdOutcome := { success := false, message := [] }
  let p := cmd.path
  if cmd.operation = "read".data then
    if existsAt fs p then
      match entryOf fs p with
      | some (FSEntry.file d) =>
        match decodeStrict d with
        | some t =>
          ({ base with success := true, content := some t,
                       message := "Successfully read file: ".data ++ p }, fs, [])
        | none => ({ base with message := procErrMsg decodeErrMsg }, fs, [])
      | _ => ({ base with message := procErrMsg (isADirErrMsg p) }, fs, [])
    else
      ({ base with message := "File not found: ".data ++ p }, fs, [])
  else if cmd.operation = "write".data ∨ cmd.operation = "create".data then
    if contentMissing cmd.content then
      ({ base with message := "No content provided for write operation".data }, fs, [])
    else
      match makedirsOk fs (dirname p) with
      | Except.error e => ({ base with message := procErrMsg e }, fs, [])
      | Except.ok fs1 =>
        if isDirAt fs1 p then
          ({ base with message := procErrMsg (isADirErrMsg p) }, fs1, [])
        else
          ({ base with success := true,
                       message := "Successfully wrote to file: ".data ++ p },
           setEntry fs1 p (FSEntry.file (encodeText (cmd.content.getD []))), [])
  else if cmd.operation = "append".data then
    if contentMissing cmd.content then
      ({ base with message := "No content provided for append operation".data }, fs, [])
    else
      match makedirsOk fs (dirname p) with
      | Except.error e => ({ base with message := procErrMsg e }, fs, [])
      | Except.ok fs1 =>
        let c := cmd.content.getD []
        match entryOf fs1 p with
        | none =>
          ({ base with success := true,
                       message := "Successfully appended to file: ".data ++ p },
           setEntry fs1 p (FSEntry.file (encodeText c)), [])
        | some (FSEntry.file d) =>
          ({ base with success := true,
                       message := "Successfully appended to file: ".data ++ p },
           setEntry fs1 p (FSEntry.file (d ++ encodeText c)), [])
        | some FSEntry.dir =>
          ({ base with message := procErrMsg (isADirErrMsg p) }, fs1, [])
  else if cmd.operation = "delete".data then
    if existsAt fs p then
      ({ base with success := true,
                   message := "Successfully deleted: ".data ++ p }, eraseTree fs p, [])
    else
      ({ base with message := "Path not found: ".data ++ p }, fs, [])
  else if cmd.operation = "list".data then
    if existsAt fs p ∧ isDirAt fs p then
      ({ base with success := true,
                   message := "Successfully listed directory: ".data ++ p,
                   items := some ((listdir fs p).map (fun name =>
                     let ip := joinPath p name
                     { name := name, is_directory := isDirAt fs ip,
                       size := sizeAt fs ip })) }, fs, [])
    else
      ({ base with message := "Directory not found: ".data ++ p }, fs, [])
  else if cmd.operation = "run".data then
    if contentMissing cmd.content then
      ({ base with message := "No command provided for run operation".data }, fs, [])
    else
      let c := cmd.content.getD []
      let cwd := if isDirAt fs p then p else dirname p
      if isDirAt fs cwd then
        let out := shell c
        ({ base with success := out.returncode = 0,
                     stdout := some out.stdout, stderr := some out.stderr,
                     returncode := some out.returncode,
                     message := if out.returncode = 0 then
                         "Command executed successfully".data
                       else "Command execution failed".data }, fs, [c])
      else
        ({ base with message :=
            procErrMsg ("[Errno 2] No such file or directory: '".data ++ cwd ++ "'".data) },
         fs, [])
  else
    ({ base with message := "Unsupported operation: ".data ++ cmd.operation }, fs, [])

/-- One result dict of `process_commands`: the directive's operation and
path (which the source writes into the dict up front) together with the
fields the branch produced. -/
def processOne (shell : ShellOracle) (fs : FS) (cmd : Cmd) :
    CmdResult × FS × List Str :=
  ({ operation := cmd.operation, path := cmd.path,
     success := (processOneCore shell fs cmd).1.success,
     message := (processOneCore shell fs cmd).1.message,
     content := (processOneCore shell fs cmd).1.content,
     items := (processOneCore shell fs cmd).1.items,
     stdout := (processOneCore shell fs cmd).1.stdout,
     stderr := (processOneCore shell fs cmd).1.stderr,
     returncode := (processOneCore shell fs cmd).1.returncode },
   (processOneCore shell fs cmd).2.1,
   (processOneCore shell fs cmd).2.2)

/-- `process_commands`: fold `processOne` over the directives in source
order, collecting one result per directive and the dispatched shell
commands. -/
def process_commands (shell : ShellOracle) (fs : FS) :
    List Cmd → List CmdResult × FS × List Str
  | [] => ([], fs, [])
  | cmd :: rest =>
    let (r, fs1, t1) := processOne shell fs cmd
    let (rs, fs2, t2) := process_commands shell fs1 rest
    (r :: rs, fs2, t1 ++ t2)

/-! ## Response rewriting (`chat_with_ai`, command-processing section) -/

/-- Python `str.replace`: replace every non-overlapping occurrence of a
nonempty pattern, scanning left to right. -/
def replaceAllAux (p r : Str) : Nat → Str → Str
  | 0, s => s
  | Nat.succ n, s =>
    match s with
    | [] => []
    | c :: rest =>
      if p ≠ [] ∧ p.isPrefixOf (c :: rest) then
        r ++ replaceAllAux p r n ((c :: rest).drop p.length)
      else c :: replaceAllAux p r n rest

/-- Python `str.replace` over a whole text (the fuel, the input length,
bounds the number of scan steps; a replacement consumes at least one input
character). -/
def replaceAll (s p r : Str) : Str := replaceAllAux p r s.length s

/-- The replacement text the chat handler substitutes for a directive:
fenced content for a successful read, a success marker otherwise, and a
failure marker for an unsuccessful result. -/
def replacementFor (cmd : Cmd) (res : CmdResult) : Str :=
  if res.success then
    if cmd.operation = "read".data ∧ res.content.isSome then
      "```\n".data ++ res.content.getD [] ++ "\n```".data
    else
      "✅ ".data ++ res.message
  else
    "❌ ".data ++ res.message

/-- The rewrite loop of `chat_with_ai`:
`response = response.replace(cmd["full_match"], replacement)` for each
directive/result pair, on the running response text. -/
def rewriteResponse (response : Str) : List (Cmd × CmdResult) → Str
  | [] => response
  | (cmd, res) :: rest =>
    rewriteResponse (replaceAll response cmd.full_match (replacementFor cmd res)) rest

/--
The command-processing section of `chat_with_ai`: extract the directives;
when there are none the response and filesystem are untouched and no
results are produced; otherwise process the directives and rewrite the
response.  Returns the rewritten response, the results, the filesystem
after processing, and the dispatched shell commands.
-/
def runPipeline (shell : ShellOracle) (fs : FS) (response : Str) :
    Str × List CmdResult × FS × List Str :=
  let cmds := extract_commands response
  if cmds = [] then (response, [], fs, [])
  else
    let (results, fs1, trace) := process_commands shell fs cmds
    (rewriteResponse response (cmds.zip results), results, fs1, trace)

/-! ## Terminal endpoint (`execute_terminal_command`) -/

/-- The `unsafe_commands` blacklist of `execute_terminal_command`. -/
def unsafe_commands : List Str :=
  [ "rm -rf".data, "format".data, "del /s".data, "deltree".data,
    "shutdown".data, "reboot".data, ":()\x7b:|:&\x7d;:".data,
    "chmod -R 777".data, "mkfs".data, "dd if=/dev/zero".data,
    "mv /* /dev/null".data, "> /dev/sda".data, "wget".data, "curl".data ]

/-- The dangerous-pattern filter: does the lowercased command contain any
blacklisted substring? -/
def isDangerousCmd (c : Str) : Bool :=
  unsafe_commands.any (fun u => isSubstr u (pyLower c))

/-- The JSON-dict response of the terminal endpoint. -/
structure TerminalResponse where
  success : Bool
  output : Str
  error : Str
  exit_code : Option Int := none
  deriving Repr, DecidableEq

/--
`execute_terminal_command`: reject a blacklisted command without running
anything, otherwise dispatch the command line to the shell.  The timeout
and OS-failure handlers of the source are not modelled (the shell oracle
is total).  Returns the response and the dispatched command lines.
-/
def execute_terminal_command (shell : ShellOracle) (command : Str) :
    TerminalResponse × List Str :=
  if isDangerousCmd command then
    ({ success := false,
       output := "Command rejected for security reasons.".data,
       error := "This command contains potentially unsafe operations.".data }, [])
  else
    let out := shell command
    ({ success := out.returncode = 0, output := out.stdout, error := out.stderr,
       exit_code := some out.returncode }, [command])

/-! ## Spec-side definitions and helpers for the claims -/

/-- Does the path contain a directory separator? -/
def hasSlash (p : Str) : Bool := p.any (· = '/')

/-- Lexical resolution of the `/`-separated segments of a relative path
against a stack of entered directories: `..` pops, an empty or `.` segment
is skipped, anything else pushes.  Returns false when a `..` escapes above
the start. -/
def underRootAux : List Str → List Str → Bool
  | [], _ => true
  | seg :: rest, stack =>
    if seg = "..".data then
      match stack with
      | [] => false
      | _ :: st => underRootAux rest st
    else if seg = [] ∨ seg = ".".data then underRootAux rest stack
    else underRootAux rest (seg :: stack)

/--
Modelled from the spec: the root-constrained Path Validator is described as
rejecting a traversal or absolute path "unless the resolved path still lies
under a configured root".  The source has no resolution step, so the
resolved-under-root condition is taken from the spec's words: the path is
relative and its lexical resolution never climbs above the root.
-/
def specResolvedUnderRoot (p : Str) : Bool :=
  !startsWithSlash p && underRootAux (p.splitOn '/') []

/-- A constant shell oracle used for concrete instantiations. -/
def shell0 : ShellOracle := fun _ => { stdout := [], stderr := [], returncode := 0 }

/-- Strictly decoding an encoded text gives the text back. -/
theorem decodeStrict_encodeText (s : Str) : decodeStrict (encodeText s) = some s := by
  induction s with
  | nil => rfl
  | cons c rest ih => simp [encodeText, decodeStrict] at ih ⊢; simp [ih]

/-- Looking up the path just set returns the new entry. -/
theorem entryOf_setEntry_self (fs : FS) (p : Str) (e : FSEntry) :
    entryOf (setEntry fs p e) p = some e := by
  simp [setEntry, entryOf]

/-- A path without a separator has no last slash. -/
theorem lastSlashIdx_eq_none (p : Str) (h : hasSlash p = false) :
    lastSlashIdx p = none := by
  induction p with
  | nil => rfl
  | cons c rest ih =>
    simp only [hasSlash, List.any_cons, Bool.or_eq_false_iff,
      decide_eq_false_iff_not] at h
    have h2 : hasSlash rest = false := h.2
    simp [lastSlashIdx, ih h2, h.1]

/-- `os.path.dirname` of a bare filename is empty. -/
theorem dirname_eq_nil (p : Str) (h : hasSlash p = false) : dirname p = [] := by
  simp [dirname, lastSlashIdx_eq_none p h]

/-- Dispatch of `file_operation` to the `read` branch. -/
theorem file_operation_read (fs : FS) (p : Str) (h : pathRejected p = false) :
    file_operation fs { operation := "read".data, path := p } = (read_impl fs p, fs) := by
  have hop : pyLower "read".data = "read".data := by decide
  simp [file_operation, h, hop]

/-- Dispatch of `file_operation` to the `write` branch. -/
theorem file_operation_write (fs : FS) (p : Str) (co : Option Str)
    (h : pathRejected p = false) :
    file_operation fs { operation := "write".data, path := p, content := co }
      = write_impl fs p co := by
  have h1 : pyLower "write".data = "write".data := by decide
  have h2 : ¬ (("write".data : Str) = "read".data) := by decide
  simp [file_operation, h, h1, h2]

/-- Dispatch of `file_operation` to the `create` branch. -/
theorem file_operation_create (fs : FS) (p : Str) (co : Option Str)
    (h : pathRejected p = false) :
    file_operation fs { operation := "create".data, path := p, content := co }
      = create_impl fs p co := by
  have h1 : pyLower "create".data = "create".data := by decide
  have h2 : ¬ (("create".data : Str) = "read".data) := by decide
  have h3 : ¬ (("create".data : Str) = "write".data) := by decide
  have h4 : ¬ (("create".data : Str) = "list".data) := by decide
  simp [file_operation, h, h1, h2, h3, h4]

/--
C9: for every path accepted by the validator and every content, a
successful `write` followed by `read` on the same path returns exactly the
written content.
-/
theorem C9_write_read_roundtrip (fs : FS) (p : Str) (c : Str)
    (hacc : pathRejected p = false)
    (hw : ((file_operation fs
        { operation := "write".data, path := p, content := some c }).1).success = true) :
    (file_operation
        ((file_operation fs
          { operation := "write".data, path := p, content := some c }).2)
        { operation := "read".data, path := p }).1
      = { success := true, content := some c } := by
  rw [file_operation_write fs p (some c) hacc] at hw ⊢
  unfold write_impl at hw ⊢
  cases hm : makedirsOk fs (dirname p) with
  | error e => rw [hm] at hw; simp at hw
  | ok fs1 =>
    rw [hm] at hw
    by_cases hd : isDirAt fs1 p = true
    · simp [hd] at hw
    · rw [file_operation_read _ p hacc]
      simp [read_impl, entryOf_setEntry_self, decodeStrict_encodeText, hd]

/-- Witness for C9 at a concrete filesystem, path and content. -/
def fsW : FS := [("d".data, FSEntry.dir)]

/-- C9 applied at the concrete input `d/f.txt`, content `hi`. -/
theorem C9_witness :
    (file_operation
        ((file_operation fsW
          { operation := "write".data, path := "d/f.txt".data, content := some "hi".data }).2)
        { operation := "read".data, path := "d/f.txt".data }).1
      = { success := true, content := some "hi".data } :=
  C9_write_read_roundtrip fsW "d/f.txt".data "hi".data (by decide) (by decide)

/--
C10: on a bare filename (no directory separator) the direct `write` and
`create` operations and the embedded `write`, `create` and `append`
directives always return success = false: when the content check and the
existence check pass, `os.makedirs` on the empty dirname raises and the
exception is captured as an error result.
-/
theorem C10_bare_filename_ops_fail (fs : FS) (p : Str) (co : Option Str)
    (h : hasSlash p = false) :
    ((file_operation fs { operation := "write".data, path := p, content := co }).1.success = false)
  ∧ ((file_operation fs { operation := "create".data, path := p, content := co }).1.success = false)
  ∧ (∀ shell fm,
      ((processOne shell fs { operation := "write".data, path := p, content := co, full_match := fm }).1).success = false)
  ∧ (∀ shell fm,
      ((processOne shell fs { operation := "create".data, path := p, content := co, full_match := fm }).1).success = false)
  ∧ (∀ shell fm,
      ((processOne shell fs { operation := "append".data, path := p, content := co, full_match := fm }).1).success = false) := by
  have hd : dirname p = [] := dirname_eq_nil p h
  have hmk : ∀ g : FS, makedirsOk g (dirname p) = Except.error "[Errno 2] No such file or directory: ''".data := by
    intro g; rw [hd]; simp [makedirsOk]
  refine ⟨?_, ?_, ?_, ?_, ?_⟩
  · by_cases hrej : pathRejected p = true
    · simp [file_operation, hrej]
    · rw [file_operation_write fs p co (by simpa using hrej)]
      cases co with
      | none => simp [write_impl]
      | some c => simp [write_impl, hmk]
  · by_cases hrej : pathRejected p = true
    · simp [file_operation, hrej]
    · rw [file_operation_create fs p co (by simpa using hrej)]
      by_cases hex : existsAt fs p = true
      · simp [create_impl, hex]
      · simp [create_impl, hex, hmk]
  · intro shell fm
    have h1 : ¬ (("write".data : Str) = "read".data) := by decide
    have h2 : (("write".data : Str) = "write".data ∨ ("write".data : Str) = "create".data) := by decide
    by_cases hc : contentMissing co = true
    · simp [processOne, processOneCore, h1, h2, hc]
    · simp [processOne, processOneCore, h1, h2, hc, hmk]
  · intro shell fm
    have h1 : ¬ (("create".data : Str) = "read".data) := by decide
    have h2 : (("create".data : Str) = "write".data ∨ ("create".data : Str) = "create".data) := by decide
    by_cases hc : contentMissing co = true
    · simp [processOne, processOneCore, h1, h2, hc]
    · simp [processOne, processOneCore, h1, h2, hc, hmk]
  · intro shell fm
    have h1 : ¬ (("append".data : Str) = "read".data) := by decide
    have h2 : ¬ (("append".data : Str) = "write".data ∨ ("append".data : Str) = "create".data) := by decide
    have h3 : (("append".data : Str) = "append".data) := rfl
    by_cases hc : contentMissing co = true
    · simp [processOne, processOneCore, h1, h2, h3, hc]
    · simp [processOne, processOneCore, h1, h2, h3, hc, hmk]

/-- C10 applied at the concrete bare filename `file.txt`. -/
theorem C10_witness :
    ((file_operation [] { operation := "write".data, path := "file.txt".data, content := some "x".data }).1.success = false)
  ∧ ((file_operation [] { operation := "create".data, path := "file.txt".data, content := some "x".data }).1.success = false)
  ∧ (∀ shell fm,
      ((processOne shell [] { operation := "write".data, path := "file.txt".data, content := some "x".data, full_match := fm }).1).success = false)
  ∧ (∀ shell fm,
      ((processOne shell [] { operation := "create".data, path := "file.txt".data, content := some "x".data, full_match := fm }).1).success = false)
  ∧ (∀ shell fm,
      ((processOne shell [] { operation := "append".data, path := "file.txt".data, content := some "x".data, full_match := fm }).1).success = false) :=
  C10_bare_filename_ops_fail [] "file.txt".data (some "x".data) (by decide)

/-- Concrete filesystem holding `subdir/file.txt`, for the acceptance part
of C5. -/
def fs5 : FS :=
  [("subdir".data, FSEntry.dir),
   ("subdir/file.txt".data, FSEntry.file (encodeText "hello".data))]

/--
C5 counterexample: the path `subdir/../file.txt` resolves under the root
(per the spec's resolved-under-root reading), yet the validator rejects it
unconditionally — the "unless the resolved path still lies under the
configured root" exception does not exist in the code.
-/
theorem C5_counterexample :
    specResolvedUnderRoot "subdir/../file.txt".data = true
    ∧ (file_operation [] { operation := "read".data, path := "subdir/../file.txt".data }).1
      = { success := false,
          error := some "Invalid path. Directory traversal is not allowed.".data } := by
  decide

/--
C5 amended: under root-constrained mode the validator rejects every path
containing the substring `..` or starting with `/`, unconditionally (the
resolved location is never consulted); every rejection is the returned
invalid-path error payload with the filesystem untouched, never a thrown
condition; and `subdir/file.txt` is accepted (its read succeeds).
-/
theorem C5_amended_validator (fs : FS) (req : FileOperation)
    (h : pathRejected req.path = true) :
    file_operation fs req
      = ({ success := false,
           error := some "Invalid path. Directory traversal is not allowed.".data }, fs)
    ∧ (file_operation fs5 { operation := "read".data, path := "subdir/file.txt".data }).1
      = { success := true, content := some "hello".data } := by
  constructor
  · simp [file_operation, h]
  · decide

/-- C5 applied at the concrete rejected path `../../etc/passwd`. -/
theorem C5_witness :
    (file_operation [] { operation := "read".data, path := "../../etc/passwd".data }
      = ({ success := false,
           error := some "Invalid path. Directory traversal is not allowed.".data }, ([] : FS)))
    ∧ (file_operation fs5 { operation := "read".data, path := "subdir/file.txt".data }).1
      = { success := true, content := some "hello".data } :=
  C5_amended_validator [] { operation := "read".data, path := "../../etc/passwd".data }
    (by decide)

/-- Concrete filesystem holding an undecodable file, for C6. -/
def fs6 : FS := [("b.bin".data, FSEntry.file [FByte.ch 'b', FByte.bad 255])]

/--
C6 counterexample: content that fails the strict text decode produces a
surfaced failure result (success = false with the codec message), not a
distinguishable binary/undisplayable sentinel result.
-/
theorem C6_counterexample :
    decodeStrict [FByte.ch 'b', FByte.bad 255] = none
    ∧ (file_operation fs6 { operation := "read".data, path := "b.bin".data }).1
      = { success := false, error := some decodeErrMsg } := by
  decide

/--
C6 amended: `read` fails with the not-found error when the path is absent
and with the is-a-directory error when it is a directory; otherwise it
returns the full decoded content; content that fails to decode yields a
captured error result carrying the decode message — nothing is raised to
the caller, but the failure is surfaced as an ordinary error result, not a
sentinel success.
-/
theorem C6_read_contract (fs : FS) (p : Str) :
    (entryOf fs p = none →
      read_impl fs p = { success := false, error := some ("File not found: ".data ++ p) })
  ∧ (entryOf fs p = some FSEntry.dir →
      read_impl fs p
        = { success := false, error := some (p ++ " is a directory, not a file".data) })
  ∧ (∀ d t, entryOf fs p = some (FSEntry.file d) → decodeStrict d = some t →
      read_impl fs p = { success := true, content := some t })
  ∧ (∀ d, entryOf fs p = some (FSEntry.file d) → decodeStrict d = none →
      read_impl fs p = { success := false, error := some decodeErrMsg }) := by
  refine ⟨fun h => ?_, fun h => ?_, fun d t h hd => ?_, fun d h hd => ?_⟩
  · simp [read_impl, h]
  · simp [read_impl, h]
  · simp [read_impl, h, hd]
  · simp [read_impl, h, hd]

/-- C6 applied at the concrete undecodable file `b.bin`. -/
theorem C6_witness :
    read_impl fs6 "b.bin".data = { success := false, error := some decodeErrMsg } :=
  (C6_read_contract fs6 "b.bin".data).2.2.2 [FByte.ch 'b', FByte.bad 255]
    (by decide) (by decide)

/-- Every branch of `processOne` reports the directive's own operation and
path in its result. -/
theorem processOne_op_path (shell : ShellOracle) (fs : FS) (cmd : Cmd) :
    (processOne shell fs cmd).1.operation = cmd.operation
    ∧ (processOne shell fs cmd).1.path = cmd.path := by
  exact ⟨rfl, rfl⟩

/-- The results of `process_commands` project to the directives' operations
and paths, in source order. -/
theorem process_commands_proj (shell : ShellOracle) :
    ∀ (cmds : List Cmd) (fs : FS),
      ((process_commands shell fs cmds).1).map (fun r => (r.operation, r.path))
        = cmds.map (fun c => (c.operation, c.path)) := by
  intro cmds
  induction cmds with
  | nil => intro fs; rfl
  | cons cmd rest ih =>
    intro fs
    rcases hp : processOne shell fs cmd with ⟨r, fs1, t1⟩
    have hop := processOne_op_path shell fs cmd
    rw [hp] at hop
    simp only at hop
    rcases hq : process_commands shell fs1 rest with ⟨rs, fs2, t2⟩
    have htail := ih fs1
    rw [hq] at htail
    simp only at htail
    simp [process_commands, hp, hq, htail]
    exact ⟨hop.1, hop.2⟩

/--
C3: for every text, the pipeline produces exactly one result per extracted
directive, in source order (the result list projects to the directives'
operations and paths), for every filesystem and shell oracle — including
ones on which individual operations fail, since each directive's error is
rendered into its own result; and on a text with no directive tokens the
response is returned unchanged with an empty result list.
-/
theorem C3_one_result_per_directive (shell : ShellOracle) (fs : FS) (text : Str) :
    ((runPipeline shell fs text).2.1).map (fun r => (r.operation, r.path))
      = (extract_commands text).map (fun c => (c.operation, c.path))
    ∧ (extract_commands text = [] →
        runPipeline shell fs text = (text, [], fs, [])) := by
  constructor
  · unfold runPipeline
    by_cases he : extract_commands text = []
    · simp [he]
    · rcases hp : process_commands shell fs (extract_commands text) with ⟨rs, fs2, tr⟩
      have := process_commands_proj shell (extract_commands text) fs
      rw [hp] at this
      simp [he, hp, this]
  · intro he
    simp [runPipeline, he]

/-- C3 applied at a concrete directive-free text. -/
theorem C3_witness :
    runPipeline shell0 [] "plain text".data = ("plain text".data, [], ([] : FS), []) :=
  (C3_one_result_per_directive shell0 [] "plain text".data).2 (by decide)

/-- Concrete filesystem whose only entry is the working directory `.`,
for C1. -/
def fsDot : FS := [(".".data, FSEntry.dir)]

/--
C1 counterexample: the embedded directive
`\x7b\x7bcommand:run|.|rm -rf /\x7d\x7d` carries a command the
dangerous-pattern filter flags, yet the pipeline dispatches it to the
shell executor — no filter runs on the embedded path.
-/
theorem C1_counterexample :
    isDangerousCmd "rm -rf /".data = true
    ∧ (runPipeline shell0 fsDot "\x7b\x7bcommand:run|.|rm -rf /\x7d\x7d".data).2.2.2
      = ["rm -rf /".data] := by
  decide

/--
C1 amended: the dangerous-pattern filter guards only the direct
terminal-execution endpoint — there a single substring hit blocks the
whole command with nothing dispatched — while the embedded-directive
pipeline dispatches every well-formed `run` directive (nonempty command,
existing working directory) to the shell executor without consulting the
filter.
-/
theorem C1_filter_location (shell : ShellOracle) :
    (∀ c : Str, isDangerousCmd c = true →
      execute_terminal_command shell c
        = ({ success := false,
             output := "Command rejected for security reasons.".data,
             error := "This command contains potentially unsafe operations.".data }, []))
    ∧ (∀ (fs : FS) (cmd : Cmd) (c : Str),
        cmd.operation = "run".data → cmd.content = some c → c ≠ [] →
        isDirAt fs cmd.path = true →
        (processOne shell fs cmd).2.2 = [c]) := by
  constructor
  · intro c h
    simp [execute_terminal_command, h]
  · intro fs cmd c hop hc hcne hdir
    have hA : ¬ (("run".data : Str) = "read".data) := by decide
    have hB : ¬ (("run".data : Str) = "write".data ∨ ("run".data : Str) = "create".data) := by decide
    have hC : ¬ (("run".data : Str) = "append".data) := by decide
    have hD : ¬ (("run".data : Str) = "delete".data) := by decide
    have hE : ¬ (("run".data : Str) = "list".data) := by decide
    simp [processOne, processOneCore, hop, hc, hA, hB, hC, hD, hE, contentMissing, hcne, hdir]

/-- C1 applied at concrete inputs: the terminal endpoint blocks
`RM -RF /tmp` without dispatching, and the pipeline dispatches an embedded
`run` directive. -/
theorem C1_witness :
    execute_terminal_command shell0 "RM -RF /tmp".data
      = ({ success := false,
           output := "Command rejected for security reasons.".data,
           error := "This command contains potentially unsafe operations.".data }, [])
    ∧ (processOne shell0 fsDot
        { operation := "run".data, path := ".".data, content := some "ls".data,
          full_match := [] }).2.2 = ["ls".data] :=
  ⟨(C1_filter_location shell0).1 "RM -RF /tmp".data (by decide),
   (C1_filter_location shell0).2 fsDot
     { operation := "run".data, path := ".".data, content := some "ls".data,
       full_match := [] } "ls".data rfl rfl (by decide) (by decide)⟩

/-- Concrete filesystem for the C2 failing input. -/
def fs2 : FS :=
  [("d".data, FSEntry.dir), ("d/f".data, FSEntry.file (encodeText "old".data))]

/-- The C2 failing input: read, write, read of the same file, the two read
directives having identical matched text. -/
def t2 : Str :=
  "\x7b\x7bcommand:read|d/f\x7d\x7d \x7b\x7bcommand:write|d/f|X\x7d\x7d \x7b\x7bcommand:read|d/f\x7d\x7d".data

/--
C2 at the failing input: all three directives succeed and the third reads
back `X`, but the rewrite loop's global `str.replace` substitutes both
identical read spans with the first read's content, so the rewritten text
shows `old` twice and the third directive's result `X` appears nowhere —
spans are not replaced exactly once with their own results.
-/
theorem C2_rewrite_at_failing_input :
    ((runPipeline shell0 fs2 t2).2.1).map (fun r => (r.success, r.content))
      = [(true, some "old".data), (true, none), (true, some "X".data)]
    ∧ (runPipeline shell0 fs2 t2).1
      = "```\nold\n``` ✅ Successfully wrote to file: d/f ```\nold\n```".data
    ∧ isSubstr "X".data (runPipeline shell0 fs2 t2).1 = false := by
  decide

/-- Concrete search root for C8: a text file and an undecodable file whose
byte run contains the pattern. -/
def fs8 : FS :=
  [("r".data, FSEntry.dir),
   ("r/a.txt".data, FSEntry.file (encodeText "foo\nbar\n".data)),
   ("r/b.bin".data,
    FSEntry.file [FByte.ch 'b', FByte.ch 'a', FByte.ch 'r', FByte.bad 255])]

/--
C8 at the failing input: `b.bin` fails the strict text decode, yet the
search does not skip it — the source opens with `errors='replace'`, so the
file is decoded with U+FFFD and contributes a match entry, contrary to the
claim (and to the source's own dead `except UnicodeDecodeError` handler
and its "skip binary files" comment).
-/
theorem C8_binary_file_searched :
    decodeStrict [FByte.ch 'b', FByte.ch 'a', FByte.ch 'r', FByte.bad 255] = none
    ∧ (file_operation fs8
        { operation := "search".data, path := "r".data, pattern := some "bar".data }).1
      = { success := true,
          results := some
            [ { file := "a.txt".data,
                matchList := [{ line := 2, content := "bar".data, matchText := "bar".data }] },
              { file := "b.bin".data,
                matchList := [{ line := 1, content := ('b' :: 'a' :: 'r' :: '�' :: []),
                                matchText := "bar".data }] } ] } := by
  decide

/-- `findClose` splits its input at the earliest close delimiter: the
prefix it returns reconstructs the input and contains no close delimiter. -/
theorem findClose_shape : ∀ (t a b : Str), findClose t = some (a, b) →
    t = a ++ closeDelim ++ b ∧ isSubstr closeDelim a = false := by
  intro t
  induction t with
  | nil => intro a b h; exact absurd h (by simp [findClose])
  | cons c rest ih =>
    intro a b h
    rw [findClose] at h
    by_cases hs : startsWithClose (c :: rest) = true
    · rw [if_pos hs] at h
      cases rest with
      | nil => simp [startsWithClose] at hs
      | cons d u =>
        simp only [startsWithClose, Bool.and_eq_true, decide_eq_true_eq] at hs
        simp only [List.drop_succ_cons, List.drop_zero, Option.some.injEq,
          Prod.mk.injEq] at h
        refine ⟨?_, ?_⟩
        · rw [← h.1, ← h.2, hs.1, hs.2]
          rfl
        · rw [← h.1]
          decide
    · rw [if_neg hs] at h
      cases hf : findClose rest with
      | none => rw [hf] at h; exact absurd h (by simp)
      | some ab =>
        obtain ⟨a', b'⟩ := ab
        rw [hf] at h
        simp only [Option.some.injEq, Prod.mk.injEq] at h
        obtain ⟨hd, hnc⟩ := ih a' b' hf
        refine ⟨?_, ?_⟩
        · rw [← h.1, ← h.2, hd]
          rfl
        · rw [← h.1]
          have hpre : closeDelim.isPrefixOf (c :: a') = false := by
            cases a' with
            | nil => simp [closeDelim, List.isPrefixOf]
            | cons e u =>
              by_cases hcq : c = '\x7d'
              · by_cases heq : e = '\x7d'
                · exfalso
                  apply hs
                  rw [hd]
                  simp [startsWithClose, hcq, heq]
                · have hbe : ('\x7d' == e) = false :=
                    beq_eq_false_iff_ne.mpr (fun hh => heq hh.symm)
                  simp [closeDelim, List.isPrefixOf, hbe]
              · have hbc : ('\x7d' == c) = false :=
                  beq_eq_false_iff_ne.mpr (fun hh => hcq hh.symm)
                simp [closeDelim, List.isPrefixOf, hbc]
          rw [isSubstr, hpre]
          simpa using hnc

/-- The content segment `contentScan` returns is nonempty and, past its
first character, free of the close delimiter. -/
theorem contentScan_shape : ∀ (t cnt r : Str), contentScan t = some (cnt, r) →
    cnt ≠ [] ∧ isSubstr closeDelim (cnt.drop 1) = false := by
  intro t cnt r h
  cases t with
  | nil => exact absurd h (by simp [contentScan])
  | cons c rest =>
    rw [contentScan] at h
    cases hf : findClose rest with
    | none => rw [hf] at h; exact absurd h (by simp)
    | some ab =>
      obtain ⟨a, b⟩ := ab
      rw [hf] at h
      simp only [Option.some.injEq, Prod.mk.injEq] at h
      obtain ⟨-, hnc⟩ := findClose_shape rest a b hf
      rw [← h.1]
      exact ⟨by simp, by simpa using hnc⟩

/-- Any content produced by the body scan is nonempty and, past its first
character, free of the close delimiter. -/
theorem scanBody_content : ∀ (t p r cnt : Str) (co : Option Str),
    scanBody t = some (p, co, r) → co = some cnt →
    cnt ≠ [] ∧ isSubstr closeDelim (cnt.drop 1) = false := by
  intro t
  induction t with
  | nil => intro p r cnt co h _; exact absurd h (by simp [scanBody])
  | cons c rest ih =>
    intro p r cnt co h hco
    rw [scanBody] at h
    by_cases hc : c = '|'
    · rw [if_pos hc] at h
      cases hcs : contentScan rest with
      | some ab =>
        obtain ⟨cnt', r'⟩ := ab
        rw [hcs] at h
        simp only [Option.some.injEq, Prod.mk.injEq] at h
        rw [← h.2.1] at hco
        rw [show cnt = cnt' from (Option.some.injEq ..).mp hco.symm]
        exact contentScan_shape rest cnt' r' hcs
      | none =>
        rw [hcs] at h
        cases hsb : scanBody rest with
        | none => rw [hsb] at h; exact absurd h (by simp)
        | some pcr =>
          obtain ⟨p', co', r'⟩ := pcr
          rw [hsb] at h
          simp only [Option.some.injEq, Prod.mk.injEq] at h
          exact ih p' r' cnt co' hsb (h.2.1 ▸ hco)
    · rw [if_neg hc] at h
      by_cases hs : startsWithClose (c :: rest) = true
      · rw [if_pos hs] at h
        simp only [Option.some.injEq, Prod.mk.injEq] at h
        rw [← h.2.1] at hco
        exact absurd hco (by simp)
      · rw [if_neg hs] at h
        cases hsb : scanBody rest with
        | none => rw [hsb] at h; exact absurd h (by simp)
        | some pcr =>
          obtain ⟨p', co', r'⟩ := pcr
          rw [hsb] at h
          simp only [Option.some.injEq, Prod.mk.injEq] at h
          exact ih p' r' cnt co' hsb (h.2.1 ▸ hco)

/-- Any content of a directive matched by `matchAt` is nonempty and, past
its first character, free of the close delimiter. -/
theorem matchAt_content (s : Str) (cmd : Cmd) (rest : Str)
    (h : matchAt s = some (cmd, rest)) (cnt : Str) (hc : cmd.content = some cnt) :
    cnt ≠ [] ∧ isSubstr closeDelim (cnt.drop 1) = false := by
  rw [matchAt] at h
  cases hst : stripLit openLit s with
  | none => rw [hst] at h; exact absurd h (by simp)
  | some r1 =>
    rw [hst] at h
    dsimp only at h
    rcases htw : takeWord r1 with ⟨op, r2⟩
    rw [htw] at h
    dsimp only at h
    by_cases hop : op = []
    · rw [if_pos hop] at h; exact absurd h (by simp)
    · rw [if_neg hop] at h
      by_cases hc2 : r2.head? = some '|'
      · rw [if_pos hc2] at h
        cases hsb : scanBody (r2.drop 1) with
        | none => rw [hsb] at h; exact absurd h (by simp)
        | some pcr =>
          obtain ⟨p, co, r'⟩ := pcr
          rw [hsb] at h
          simp only [Option.some.injEq, Prod.mk.injEq] at h
          have hcmd : cmd.content = co := by rw [← h.1]
          exact scanBody_content (r2.drop 1) p r' cnt co hsb (hcmd ▸ hc)
      · rw [if_neg hc2] at h; exact absurd h (by simp)

/-- `matchAt_content` lifted through the `finditer` scan. -/
theorem extractAux_content : ∀ (n : Nat) (s : Str) (cmd : Cmd),
    cmd ∈ extractAux n s → ∀ cnt, cmd.content = some cnt →
    cnt ≠ [] ∧ isSubstr closeDelim (cnt.drop 1) = false := by
  intro n
  induction n with
  | zero => intro s cmd hm; exact absurd hm (by simp [extractAux])
  | succ n ih =>
    intro s cmd hm cnt hc
    cases s with
    | nil => exact absurd hm (by simp [extractAux])
    | cons c rest =>
      rw [extractAux] at hm
      cases hma : matchAt (c :: rest) with
      | none => rw [hma] at hm; exact ih rest cmd hm cnt hc
      | some ca =>
        obtain ⟨cmd', after⟩ := ca
        rw [hma] at hm
        rcases List.mem_cons.mp hm with heq | htail
        · exact matchAt_content (c :: rest) cmd after (heq ▸ hma) cnt hc
        · exact ih after cmd htail cnt hc

/--
C4 counterexample: on the token `\x7b\x7bcommand:write|p|a\x7d\x7db\x7d\x7d`,
whose content segment read greedily to the final close delimiter would be
`a\x7d\x7db`, the extractor matches only up to the first close delimiter:
the content is `a` and the matched text ends at the first `\x7d\x7d` —
content parsing is lazy, not greedy.
-/
theorem C4_counterexample :
    (extract_commands "\x7b\x7bcommand:write|p|a\x7d\x7db\x7d\x7d".data).map
        (fun c => (c.content, c.full_match))
      = [(some "a".data, "\x7b\x7bcommand:write|p|a\x7d\x7d".data)]
    ∧ ("a".data : Str) ≠ "a\x7d\x7db".data
    ∧ ("\x7b\x7bcommand:write|p|a\x7d\x7d".data : Str)
        ≠ "\x7b\x7bcommand:write|p|a\x7d\x7db\x7d\x7d".data := by
  decide

/--
C4 amended: the extractor parses content lazily, to the earliest close
delimiter that can end the token after at least one content character (so
content may contain separators and newlines, and there is no escaping):
for every extracted directive with a content segment, the content is
nonempty and past its first character never contains the close delimiter —
a token whose intended content contains `\x7d\x7d` is truncated at the
earliest viable close delimiter, not extended to the final one.
-/
theorem C4_content_lazy (text : Str) (cmd : Cmd)
    (hmem : cmd ∈ extract_commands text) (cnt : Str)
    (hc : cmd.content = some cnt) :
    cnt ≠ [] ∧ isSubstr closeDelim (cnt.drop 1) = false :=
  extractAux_content text.length text cmd hmem cnt hc

/-- C4 applied at a concrete directive whose content contains separators. -/
theorem C4_witness :
    ("x|y".data : Str) ≠ [] ∧ isSubstr closeDelim ("x|y".data.drop 1) = false :=
  C4_content_lazy "\x7b\x7bcommand:w|p|x|y\x7d\x7d".data
    { operation := "w".data, path := "p".data, content := some "x|y".data,
      full_match := "\x7b\x7bcommand:w|p|x|y\x7d\x7d".data }
    (by decide) "x|y".data rfl

end Server
